import Mathlib

/-!
Verification of the tftprs TFTP server against its specification.

The definitions below are a shallow embedding of the Rust sources:
  * packet codec            src/lib/packet/ack.rs, data.rs, error.rs
  * request parser          src/lib/server/mod.rs  (parse_rw_request)
  * send-session loop       src/lib/transfer.rs    (send_file, send_data_packet)
  * receive-session loop    src/lib/transfer.rs    (recieve_file)
  * server receive variant  src/lib/server/mod.rs  (recieve_file)

Machine integers are modelled as Nat with explicit `% 256` / `% 65536`
where u8/u16 wraparound matters; byte buffers are `List Nat`; fallible
decoding returns `Option`.  Network interaction is modelled by an explicit
channel `Nat → Option (List Nat × Nat)` giving, for the i-th receive call,
either `none` (recv_from returned Err, i.e. a timeout) or the datagram
bytes together with the sender address (addresses are plain Nat tags).
Side effects (sends, receives, file writes) are recorded in an event trace.
-/

namespace Tftprs

/-- Bytes of a Lean string literal (all strings used here are ASCII). -/
def strBytes (s : String) : List Nat := s.data.map Char.toNat

/-- Error codes from src/lib/codes.rs.  `SilentError` is the internal-only
code; the encoder in src/lib/packet/error.rs has no match arm for it. -/
inductive ErrorCode where
  | Undefined
  | FileNotFound
  | AccessViolation
  | DiskFull
  | IllegalOperation
  | UnknownTransferID
  | FileExists
  | NoSuchUser
  | SilentError
deriving DecidableEq

/-- ACK packet, src/lib/packet/ack.rs (`number` is a u16, kept < 65536). -/
structure TftpAck where
  number : Nat
deriving DecidableEq

/-- DATA packet, src/lib/packet/data.rs. -/
structure TftpData where
  number : Nat
  data : List Nat
deriving DecidableEq

/-- ERROR packet, src/lib/packet/error.rs; the message is the byte content
of the Rust `Option<String>`. -/
structure TftpError where
  code : ErrorCode
  message : Option (List Nat)
deriving DecidableEq

/-- MAX_DATA_SIZE from src/lib/packet/data.rs. -/
def MAX_DATA_SIZE : Nat := 512

/-- Wire code byte for each error code (error.rs `as_packet` match).  The
source match has no `SilentError` arm (it is never encoded); it is mapped
like `Undefined` here only to make the function total. -/
def codeByte : ErrorCode → Nat
  | ErrorCode.Undefined => 0
  | ErrorCode.FileNotFound => 1
  | ErrorCode.AccessViolation => 2
  | ErrorCode.DiskFull => 3
  | ErrorCode.IllegalOperation => 4
  | ErrorCode.UnknownTransferID => 5
  | ErrorCode.FileExists => 6
  | ErrorCode.NoSuchUser => 7
  | ErrorCode.SilentError => 0

/-- Default message substituted by `unwrap_or` in error.rs `as_packet`
when the message is `None`. -/
def defaultMessage : ErrorCode → List Nat
  | ErrorCode.Undefined => strBytes "Undefined"
  | ErrorCode.FileNotFound => strBytes "File not found"
  | ErrorCode.AccessViolation => strBytes "Access violation"
  | ErrorCode.DiskFull => strBytes "Disk full"
  | ErrorCode.IllegalOperation => strBytes "Illegal operation"
  | ErrorCode.UnknownTransferID => strBytes "Unknown transfer id"
  | ErrorCode.FileExists => strBytes "File exists"
  | ErrorCode.NoSuchUser => strBytes "No such user"
  | ErrorCode.SilentError => strBytes "Undefined"

/-- Recognized code byte on decode (error.rs `from_buffer`, match on buf\x7b3\x7d). -/
def codeOfByte (n : Nat) : Option ErrorCode :=
  if n = 0 then some ErrorCode.Undefined
  else if n = 1 then some ErrorCode.FileNotFound
  else if n = 2 then some ErrorCode.AccessViolation
  else if n = 3 then some ErrorCode.DiskFull
  else if n = 4 then some ErrorCode.IllegalOperation
  else if n = 5 then some ErrorCode.UnknownTransferID
  else if n = 6 then some ErrorCode.FileExists
  else if n = 7 then some ErrorCode.NoSuchUser
  else none

/-- ack.rs `as_packet`: `[0, 4, number >> 8, number as u8]`. -/
def tftpAckAsPacket (a : TftpAck) : List Nat :=
  [0, 4, a.number / 256 % 256, a.number % 256]

/-- ack.rs `from_buffer`: length must be exactly 4 and the opcode bytes
must be `[0, 4]`. -/
def tftpAckFromBuffer (buf : List Nat) : Option TftpAck :=
  if buf.length ≠ 4 then none
  else if buf.getD 0 0 ≠ 0 ∨ buf.getD 1 0 ≠ 4 then none
  else some ⟨buf.getD 2 0 * 256 + buf.getD 3 0⟩

/-- data.rs `as_packet`: `[0, 3, hi, lo]` followed by the payload. -/
def tftpDataAsPacket (d : TftpData) : List Nat :=
  [0, 3, d.number / 256 % 256, d.number % 256] ++ d.data

/-- data.rs `from_buffer`: at least 4 bytes, opcode bytes `[0, 3]`, the
whole remainder of the buffer is the payload (no upper bound check). -/
def tftpDataFromBuffer (buf : List Nat) : Option TftpData :=
  if buf.length < 4 then none
  else if buf.getD 0 0 ≠ 0 ∨ buf.getD 1 0 ≠ 3 then none
  else some ⟨buf.getD 2 0 * 256 + buf.getD 3 0, buf.drop 4⟩

/-- Continuation byte test for UTF-8 (0x80..=0xBF). -/
def contByte (b : Nat) : Bool := decide (128 ≤ b ∧ b ≤ 191)

/-- UTF-8 validity of a byte sequence, as checked by Rust
`String::from_utf8` (RFC 3629: no overlong forms, no surrogates,
code points at most U+10FFFF). -/
def validUtf8 : List Nat → Bool
  | [] => true
  | b :: rest =>
    if b ≤ 127 then validUtf8 rest
    else
      match rest with
      | [] => false
      | c :: rest1 =>
        if 194 ≤ b ∧ b ≤ 223 then contByte c && validUtf8 rest1
        else
          match rest1 with
          | [] => false
          | d :: rest2 =>
            if b = 224 then (decide (160 ≤ c ∧ c ≤ 191) && contByte d) && validUtf8 rest2
            else if (225 ≤ b ∧ b ≤ 236) ∨ b = 238 ∨ b = 239 then
              (contByte c && contByte d) && validUtf8 rest2
            else if b = 237 then (decide (128 ≤ c ∧ c ≤ 159) && contByte d) && validUtf8 rest2
            else
              match rest2 with
              | [] => false
              | e :: rest3 =>
                if b = 240 then
                  (decide (144 ≤ c ∧ c ≤ 191) && contByte d && contByte e) && validUtf8 rest3
                else if 241 ≤ b ∧ b ≤ 243 then
                  (contByte c && contByte d && contByte e) && validUtf8 rest3
                else if b = 244 then
                  (decide (128 ≤ c ∧ c ≤ 143) && contByte d && contByte e) && validUtf8 rest3
                else false

/-- error.rs `as_packet`: `[0, 5, 0, code]`, then the message bytes (the
per-code default when the message is `None`), then a NUL terminator. -/
def tftpErrorAsPacket (e : TftpError) : List Nat :=
  let msg := match e.message with
    | some m => m
    | none => defaultMessage e.code
  [0, 5, 0, codeByte e.code] ++ msg ++ [0]

/-- error.rs `from_buffer`: more than 4 bytes, opcode `[0, 5]`, byte 2
zero, recognized code byte, and the bytes strictly between index 4 and the
final byte must be valid UTF-8.  The final byte itself is dropped without
being checked against 0. -/
def tftpErrorFromBuffer (buf : List Nat) : Option TftpError :=
  if buf.length ≤ 4 then none
  else if buf.getD 0 0 ≠ 0 ∨ buf.getD 1 0 ≠ 5 then none
  else if buf.getD 2 0 ≠ 0 then none
  else
    match codeOfByte (buf.getD 3 0) with
    | none => none
    | some code =>
      let msgBuffer := (buf.drop 4).dropLast
      if validUtf8 msgBuffer then some ⟨code, some msgBuffer⟩ else none

/-! ### Round-trip helper lemmas (shared) -/

theorem ack_roundtrip (n : Nat) (h : n < 65536) :
    tftpAckFromBuffer (tftpAckAsPacket ⟨n⟩) = some ⟨n⟩ := by
  simp only [tftpAckAsPacket, tftpAckFromBuffer]
  norm_num [List.getD]
  omega

theorem data_roundtrip (n : Nat) (d : List Nat) (h : n < 65536) :
    tftpDataFromBuffer (tftpDataAsPacket ⟨n, d⟩) = some ⟨n, d⟩ := by
  have hshape : tftpDataAsPacket ⟨n, d⟩ = 0 :: 3 :: (n / 256 % 256) :: (n % 256) :: d := rfl
  simp only [tftpDataFromBuffer, hshape]
  norm_num [List.getD]
  omega

theorem error_roundtrip_some (c : ErrorCode) (m : List Nat)
    (hc : c ≠ ErrorCode.SilentError) (hm : validUtf8 m = true) :
    tftpErrorFromBuffer (tftpErrorAsPacket ⟨c, some m⟩) = some ⟨c, some m⟩ := by
  have hshape : tftpErrorAsPacket ⟨c, some m⟩ = 0 :: 5 :: 0 :: codeByte c :: (m ++ [0]) := rfl
  have hcode : codeOfByte (codeByte c) = some c := by
    cases c <;> simp_all [codeByte, codeOfByte]
  simp only [tftpErrorFromBuffer, hshape]
  norm_num [List.getD, hcode, List.dropLast_concat, hm]

theorem codeOfByte_isSome (n : Nat) : (codeOfByte n).isSome = true ↔ n ≤ 7 := by
  unfold codeOfByte
  split_ifs <;> simp <;> omega

/-! ### Claim C1: codec round-trip -/

/-- C1 counterexample: encoding `Error\x7bUndefined, message: None\x7d` and decoding
the result does NOT yield back the original packet — the decoded packet
carries the substituted default string "Undefined" instead of an absent
message, so `decode(encode(x)) ≠ x` in the absent-message case the claim
includes. -/
theorem c1_counterexample :
    tftpErrorFromBuffer (tftpErrorAsPacket ⟨ErrorCode.Undefined, none⟩)
      = some ⟨ErrorCode.Undefined, some (strBytes "Undefined")⟩ ∧
    (⟨ErrorCode.Undefined, some (strBytes "Undefined")⟩ : TftpError)
      ≠ ⟨ErrorCode.Undefined, none⟩ := by
  constructor
  · rfl
  · decide

/-- C1 (amended): decoding the bytes of an encoded packet yields back
exactly the original packet for every `Ack\x7bblock\x7d` with block in u16 range,
every `Data\x7bblock, payload\x7d` with payload length at most 512, and every
`Error\x7bcode, message\x7d` whose message is PRESENT (a wire error code and
UTF-8 message bytes, as a Rust `String` guarantees); when the Error message
is absent, decoding yields the packet with the per-code default string
substituted for the absent message, not the original packet. -/
theorem c1_amended_roundtrip :
    (∀ n : Nat, n < 65536 →
      tftpAckFromBuffer (tftpAckAsPacket ⟨n⟩) = some ⟨n⟩) ∧
    (∀ (n : Nat) (d : List Nat), n < 65536 → d.length ≤ 512 →
      tftpDataFromBuffer (tftpDataAsPacket ⟨n, d⟩) = some ⟨n, d⟩) ∧
    (∀ (c : ErrorCode) (m : List Nat), c ≠ ErrorCode.SilentError → validUtf8 m = true →
      tftpErrorFromBuffer (tftpErrorAsPacket ⟨c, some m⟩) = some ⟨c, some m⟩) ∧
    (∀ c : ErrorCode, c ≠ ErrorCode.SilentError →
      tftpErrorFromBuffer (tftpErrorAsPacket ⟨c, none⟩)
        = some ⟨c, some (defaultMessage c)⟩) := by
  refine ⟨fun n h => ack_roundtrip n h,
          fun n d h _ => data_roundtrip n d h,
          fun c m hc hm => error_roundtrip_some c m hc hm,
          fun c hc => ?_⟩
  have hshape : tftpErrorAsPacket ⟨c, none⟩
      = 0 :: 5 :: 0 :: codeByte c :: (defaultMessage c ++ [0]) := rfl
  have hcode : codeOfByte (codeByte c) = some c := by
    cases c <;> simp_all [codeByte, codeOfByte]
  have hm : validUtf8 (defaultMessage c) = true := by
    cases c <;> decide
  simp only [tftpErrorFromBuffer, hshape]
  norm_num [List.getD, hcode, List.dropLast_concat, hm]

/-- C1 witness: the amended round-trip at concrete packets. -/
theorem c1_amended_roundtrip_witness :
    tftpAckFromBuffer (tftpAckAsPacket ⟨258⟩) = some ⟨258⟩ ∧
    tftpDataFromBuffer (tftpDataAsPacket ⟨1, [7, 8]⟩) = some ⟨1, [7, 8]⟩ ∧
    tftpErrorFromBuffer (tftpErrorAsPacket ⟨ErrorCode.FileExists, some (strBytes "x")⟩)
      = some ⟨ErrorCode.FileExists, some (strBytes "x")⟩ ∧
    tftpErrorFromBuffer (tftpErrorAsPacket ⟨ErrorCode.DiskFull, none⟩)
      = some ⟨ErrorCode.DiskFull, some (defaultMessage ErrorCode.DiskFull)⟩ :=
  ⟨c1_amended_roundtrip.1 258 (by decide),
   c1_amended_roundtrip.2.1 1 [7, 8] (by decide) (by decide),
   c1_amended_roundtrip.2.2.1 ErrorCode.FileExists (strBytes "x") (by decide) (by decide),
   c1_amended_roundtrip.2.2.2 ErrorCode.DiskFull (by decide)⟩

/-! ### Claim C5: decode rejection -/

/-- C5 counterexample: the 5-byte buffer `[0,5,0,0,65]` contains no NUL
byte anywhere after the code byte, yet ERROR decode accepts it (the final
byte is stripped without being checked), returning the packet with code
`Undefined` and an empty message — so "returns None unless a NUL
terminator is present strictly after the code byte" is false. -/
theorem c5_counterexample :
    tftpErrorFromBuffer [0, 5, 0, 0, 65] = some ⟨ErrorCode.Undefined, some []⟩ ∧
    ([0, 5, 0, 0, 65].drop 4).all (fun b => b != 0) = true := by
  constructor
  · rfl
  · decide

/-- C5 (amended): decode returns no packet for every buffer shorter than
the minimum length of its claimed opcode (4 for ACK and DATA, 5 for
ERROR), for every buffer with a mismatched opcode byte, and for every
ERROR buffer of exactly 4 bytes; ERROR decode succeeds exactly when the
buffer has at least 5 bytes, opcode bytes `[0,5]`, byte 2 equal to 0, a
recognized code byte (at most 7), and valid UTF-8 between index 4 and the
final byte — the final byte is dropped unchecked, NOT verified to be a NUL
terminator. -/
theorem c5_amended_decode_rejects :
    (∀ buf : List Nat, buf.length < 4 →
      tftpAckFromBuffer buf = none ∧ tftpDataFromBuffer buf = none ∧
      tftpErrorFromBuffer buf = none) ∧
    (∀ buf : List Nat, 2 ≤ buf.length → buf.getD 0 0 ≠ 0 ∨ buf.getD 1 0 ≠ 4 →
      tftpAckFromBuffer buf = none) ∧
    (∀ buf : List Nat, 2 ≤ buf.length → buf.getD 0 0 ≠ 0 ∨ buf.getD 1 0 ≠ 3 →
      tftpDataFromBuffer buf = none) ∧
    (∀ buf : List Nat, 2 ≤ buf.length → buf.getD 0 0 ≠ 0 ∨ buf.getD 1 0 ≠ 5 →
      tftpErrorFromBuffer buf = none) ∧
    (∀ buf : List Nat, buf.length = 4 → tftpErrorFromBuffer buf = none) ∧
    (∀ buf : List Nat, (tftpErrorFromBuffer buf).isSome = true ↔
      5 ≤ buf.length ∧ buf.getD 0 0 = 0 ∧ buf.getD 1 0 = 5 ∧ buf.getD 2 0 = 0 ∧
      buf.getD 3 0 ≤ 7 ∧ validUtf8 ((buf.drop 4).dropLast) = true) := by
  refine ⟨fun buf h => ⟨?_, ?_, ?_⟩, fun buf h hm => ?_, fun buf h hm => ?_,
          fun buf h hm => ?_, fun buf h => ?_, fun buf => ?_⟩
  · simp only [tftpAckFromBuffer]; rw [if_pos]; omega
  · simp only [tftpDataFromBuffer]; rw [if_pos h]
  · simp only [tftpErrorFromBuffer]; rw [if_pos]; omega
  · simp only [tftpAckFromBuffer]
    split_ifs <;> simp_all
  · simp only [tftpDataFromBuffer]
    split_ifs <;> simp_all
  · simp only [tftpErrorFromBuffer]
    split_ifs <;> simp_all
  · simp only [tftpErrorFromBuffer]; rw [if_pos]; omega
  · simp only [tftpErrorFromBuffer]
    by_cases h1 : buf.length ≤ 4
    · rw [if_pos h1]
      refine iff_of_false (by simp) ?_
      rintro ⟨hlen, -⟩
      omega
    · rw [if_neg h1]
      by_cases h2 : buf.getD 0 0 ≠ 0 ∨ buf.getD 1 0 ≠ 5
      · rw [if_pos h2]
        refine iff_of_false (by simp) ?_
        rintro ⟨-, h0, h5, -⟩
        rcases h2 with h | h
        · exact h h0
        · exact h h5
      · rw [if_neg h2]
        push_neg at h2
        by_cases h3 : buf.getD 2 0 ≠ 0
        · rw [if_pos h3]
          refine iff_of_false (by simp) ?_
          rintro ⟨-, -, -, h0, -⟩
          exact h3 h0
        · rw [if_neg h3]
          push_neg at h3
          rcases hcode : codeOfByte (buf.getD 3 0) with _ | code
          · have h7 : ¬ buf.getD 3 0 ≤ 7 := by
              intro hle
              have hs := (codeOfByte_isSome (buf.getD 3 0)).2 hle
              rw [hcode] at hs
              simp at hs
            simp only [hcode]
            refine iff_of_false (by simp) ?_
            rintro ⟨-, -, -, -, hle, -⟩
            exact h7 hle
          · have h7 : buf.getD 3 0 ≤ 7 := by
              have hs : (codeOfByte (buf.getD 3 0)).isSome = true := by rw [hcode]; rfl
              exact (codeOfByte_isSome (buf.getD 3 0)).1 hs
            simp only [hcode]
            by_cases hutf : validUtf8 ((buf.drop 4).dropLast) = true
            · rw [if_pos hutf]
              exact iff_of_true rfl ⟨by omega, h2.1, h2.2, h3, h7, hutf⟩
            · rw [if_neg hutf]
              refine iff_of_false (by simp) ?_
              rintro ⟨-, -, -, -, -, hu⟩
              exact hutf hu

/-- C5 witness: the amended rejection facts at concrete buffers. -/
theorem c5_amended_decode_rejects_witness :
    (tftpAckFromBuffer [0, 4] = none ∧ tftpDataFromBuffer [0, 4] = none ∧
      tftpErrorFromBuffer [0, 4] = none) ∧
    tftpAckFromBuffer [0, 9, 0, 0] = none ∧
    tftpDataFromBuffer [0, 9, 0, 0] = none ∧
    tftpErrorFromBuffer [0, 9, 0, 0, 0] = none ∧
    tftpErrorFromBuffer [0, 5, 0, 0] = none ∧
    ((tftpErrorFromBuffer [0, 5, 0, 0, 0]).isSome = true ↔
      5 ≤ ([0, 5, 0, 0, 0] : List Nat).length ∧ ([0, 5, 0, 0, 0] : List Nat).getD 0 0 = 0 ∧
      ([0, 5, 0, 0, 0] : List Nat).getD 1 0 = 5 ∧ ([0, 5, 0, 0, 0] : List Nat).getD 2 0 = 0 ∧
      ([0, 5, 0, 0, 0] : List Nat).getD 3 0 ≤ 7 ∧
      validUtf8 ((([0, 5, 0, 0, 0] : List Nat).drop 4).dropLast) = true) :=
  ⟨c5_amended_decode_rejects.1 [0, 4] (by decide),
   c5_amended_decode_rejects.2.1 [0, 9, 0, 0] (by decide) (by decide),
   c5_amended_decode_rejects.2.2.1 [0, 9, 0, 0] (by decide) (by decide),
   c5_amended_decode_rejects.2.2.2.1 [0, 9, 0, 0, 0] (by decide) (by decide),
   c5_amended_decode_rejects.2.2.2.2.1 [0, 5, 0, 0] (by decide),
   c5_amended_decode_rejects.2.2.2.2.2 [0, 5, 0, 0, 0]⟩

/-! ### Send session: the DATA-packet production loop

transfer.rs `send_file` (lines 135-168) and the duplicate
server/mod.rs `send_file` (lines 357-408) run, per block number starting
at 1: read up to 512 bytes; truncate the buffer when fewer than 512 bytes
were read; stop successfully when `file_bytes == 0 && number > 1 &&
previous_bytes_sent < 512`; otherwise hand `Data\x7bnumber, chunk\x7d` to the
ACK-wait loop and continue.  Here the file is its remaining byte list
(reads of a regular file return `min 512 remaining` bytes), every handed
packet is assumed acknowledged on the first attempt, and `fuel` bounds the
iterations of the unbounded `for number in 1..` loop (the Bool result is
true exactly when the loop returned `Ok`, i.e. did not run out of fuel).
`number` is a u16 in the source (inferred from `data_packet.number`), so
the model carries it already wrapped modulo 65536: the `number > 1` stop
guard compares the WRAPPED value, exactly as the compiled program does
(release-mode wraparound semantics; a debug build would panic on the range
iterator's overflow instead of wrapping). -/
def sendFileLoop : Nat → Nat → Nat → List Nat → List TftpData × Bool
  | 0, _, _, _ => ([], false)
  | fuel + 1, number, prev, rest =>
    let chunk := rest.take 512
    let fileBytes := chunk.length
    if fileBytes = 0 ∧ number > 1 ∧ prev < 512 then ([], true)
    else
      let next := sendFileLoop fuel ((number + 1) % 65536) fileBytes (rest.drop 512)
      (⟨number, chunk⟩ :: next.1, next.2)

/-- transfer.rs `send_file` on a file with the given contents: the
sequence of DATA packets sent (`fuel = length + 5` always suffices, see
`sendFileLoop_full`: at most `length / 512 + 1` blocks are emitted plus at
most two wrap-induced empty blocks and the stopping iteration). -/
def sendFilePackets (contents : List Nat) : List TftpData × Bool :=
  sendFileLoop (contents.length + 5) 1 0 contents

/-- The trailing zero-length DATA packets the loop emits once the file is
exhausted, as a function of the wrapped block counter `w` at the first
exhausted iteration: none when `w > 1` (the guard stops at once), but a
session whose u16 counter has just wrapped to 0 or 1 fails the
`number > 1` guard and keeps emitting empty blocks until the counter
reaches 2. -/
def extraEmpties (w : Nat) : List TftpData :=
  if w > 1 then []
  else if w = 1 then [⟨1, []⟩]
  else [⟨0, []⟩, ⟨1, []⟩]

/-- Closed form of the packet sequence that `send_file` produces from
wrapped block counter `w` onward once the previous block was full
(512 bytes): full 512-byte blocks while at least 512 bytes remain, then
one final block with whatever remains (possibly empty), then the
wrap-induced trailing empty blocks. -/
def blockSequence (w : Nat) (rest : List Nat) : List TftpData :=
  if rest.length < 512 then ⟨w, rest⟩ :: extraEmpties ((w + 1) % 65536)
  else ⟨w, rest.take 512⟩ :: blockSequence ((w + 1) % 65536) (rest.drop 512)
termination_by rest.length
decreasing_by simp; omega

theorem blockSequence_eq (w : Nat) (rest : List Nat) :
    blockSequence w rest =
      if rest.length < 512 then ⟨w, rest⟩ :: extraEmpties ((w + 1) % 65536)
      else ⟨w, rest.take 512⟩ :: blockSequence ((w + 1) % 65536) (rest.drop 512) := by
  rw [blockSequence]

theorem sendFileLoop_succ (fuel number prev : Nat) (rest : List Nat) :
    sendFileLoop (fuel + 1) number prev rest =
      if (rest.take 512).length = 0 ∧ number > 1 ∧ prev < 512 then ([], true)
      else
        (⟨number, rest.take 512⟩ ::
           (sendFileLoop fuel ((number + 1) % 65536) (rest.take 512).length (rest.drop 512)).1,
         (sendFileLoop fuel ((number + 1) % 65536) (rest.take 512).length (rest.drop 512)).2) := rfl

theorem blockSequence_ne_nil (w : Nat) (rest : List Nat) :
    blockSequence w rest ≠ [] := by
  rw [blockSequence_eq]
  split_ifs <;> simp

theorem cons_getLast?_ne_nil {α : Type} (a : α) {l : List α} (h : l ≠ []) :
    (a :: l).getLast? = l.getLast? := by
  cases l with
  | nil => exact absurd rfl h
  | cons b t => rw [List.getLast?_cons_cons]

theorem cons_dropLast_ne_nil {α : Type} (a : α) {l : List α} (h : l ≠ []) :
    (a :: l).dropLast = a :: l.dropLast := by
  cases l with
  | nil => exact absurd rfl h
  | cons b t => rw [List.dropLast_cons₂]

theorem extraEmpties_of_gt (w : Nat) (h : 1 < w) : extraEmpties w = [] := by
  unfold extraEmpties
  rw [if_pos h]

/-- Once the file is exhausted (empty rest) with fewer than 512 bytes in
the previous block, the loop emits exactly the wrap-induced trailing empty
blocks and stops. -/
theorem sendFileLoop_tail (w prev : Nat) (hw : w < 65536) (hprev : prev < 512) :
    ∀ fuel, 3 ≤ fuel → sendFileLoop fuel w prev [] = (extraEmpties w, true) := by
  intro fuel hfuel
  obtain ⟨f1, rfl⟩ : ∃ f, fuel = f + 1 := ⟨fuel - 1, by omega⟩
  rw [sendFileLoop_succ]
  rcases w with _ | _ | w2
  · rw [if_neg (by simp)]
    obtain ⟨f2, rfl⟩ : ∃ f, f1 = f + 1 := ⟨f1 - 1, by omega⟩
    rw [sendFileLoop_succ, if_neg (by norm_num)]
    obtain ⟨f3, rfl⟩ : ∃ f, f2 = f + 1 := ⟨f2 - 1, by omega⟩
    rw [sendFileLoop_succ, if_pos (by norm_num)]
    norm_num [extraEmpties]
  · rw [if_neg (by simp)]
    obtain ⟨f2, rfl⟩ : ∃ f, f1 = f + 1 := ⟨f1 - 1, by omega⟩
    rw [sendFileLoop_succ, if_pos (by norm_num)]
    norm_num [extraEmpties]
  · rw [if_pos ⟨by simp, by omega, hprev⟩, extraEmpties_of_gt (w2 + 2) (by omega)]

theorem sendFileLoop_full (n : Nat) : ∀ (rest : List Nat) (fuel w : Nat),
    rest.length = n → n + 5 ≤ fuel → w < 65536 →
    sendFileLoop fuel w 512 rest = (blockSequence w rest, true) := by
  induction n using Nat.strong_induction_on with
  | _ n ih =>
    intro rest fuel w hlen hfuel hw
    rw [blockSequence_eq]
    obtain ⟨f1, rfl⟩ : ∃ f, fuel = f + 1 := ⟨fuel - 1, by omega⟩
    rw [sendFileLoop_succ, if_neg (by simp)]
    by_cases hshort : rest.length < 512
    · rw [if_pos hshort]
      have htake : rest.take 512 = rest := List.take_of_length_le (by omega)
      have hdrop : rest.drop 512 = [] := List.drop_eq_nil_of_le (by omega)
      rw [htake, hdrop,
        sendFileLoop_tail ((w + 1) % 65536) rest.length (Nat.mod_lt _ (by omega)) hshort
          f1 (by omega)]
    · rw [if_neg hshort]
      have htake : (rest.take 512).length = 512 := by simp; omega
      rw [htake,
        ih (rest.length - 512) (by omega) (rest.drop 512) f1 ((w + 1) % 65536)
          (by simp) (by omega) (Nat.mod_lt _ (by omega))]

theorem sendFilePackets_eq (contents : List Nat) :
    sendFilePackets contents = (blockSequence 1 contents, true) := by
  unfold sendFilePackets
  rw [blockSequence_eq]
  have h5 : contents.length + 5 = (contents.length + 4) + 1 := rfl
  rw [h5, sendFileLoop_succ, if_neg (by simp)]
  by_cases hshort : contents.length < 512
  · rw [if_pos hshort]
    have htake : contents.take 512 = contents := List.take_of_length_le (by omega)
    have hdrop : contents.drop 512 = [] := List.drop_eq_nil_of_le (by omega)
    rw [htake, hdrop,
      sendFileLoop_tail ((1 + 1) % 65536) contents.length (by norm_num) hshort
        (contents.length + 4) (by omega)]
  · rw [if_neg hshort]
    have htake : (contents.take 512).length = 512 := by simp; omega
    rw [htake,
      sendFileLoop_full (contents.length - 512) (contents.drop 512) (contents.length + 4)
        ((1 + 1) % 65536) (by simp) (by omega) (by norm_num)]

/-- General packet count: the blocks of the file, the final short block,
and the wrap-induced trailing empty blocks. -/
theorem blockSequence_length (n : Nat) : ∀ (rest : List Nat) (w : Nat),
    rest.length = n →
    (blockSequence w rest).length =
      rest.length / 512 + 1 + (extraEmpties ((w + rest.length / 512 + 1) % 65536)).length := by
  induction n using Nat.strong_induction_on with
  | _ n ih =>
    intro rest w hlen
    rw [blockSequence_eq]
    by_cases hshort : rest.length < 512
    · rw [if_pos hshort]
      have h0 : rest.length / 512 = 0 := Nat.div_eq_of_lt hshort
      rw [h0]
      simp only [List.length_cons, Nat.add_zero]
      omega
    · rw [if_neg hshort]
      have hrec := ih (rest.length - 512) (by omega) (rest.drop 512) ((w + 1) % 65536) (by simp)
      simp only [List.length_cons, hrec, List.length_drop]
      have harg : ((w + 1) % 65536 + (rest.length - 512) / 512 + 1) % 65536
          = (w + rest.length / 512 + 1) % 65536 := by omega
      rw [harg]
      omega

/-- When the wrapped counter value checked after the final short block
exceeds 1 (no wrap anomaly), the last packet is that short block. -/
theorem blockSequence_getLast_noWrap (n : Nat) : ∀ (rest : List Nat) (w : Nat),
    rest.length = n → w < 65536 → (w + rest.length / 512 + 1) % 65536 > 1 →
    (blockSequence w rest).getLast? =
      some ⟨(w + rest.length / 512) % 65536, rest.drop (512 * (rest.length / 512))⟩ := by
  induction n using Nat.strong_induction_on with
  | _ n ih =>
    intro rest w hlen hw hstop
    rw [blockSequence_eq]
    by_cases hshort : rest.length < 512
    · rw [if_pos hshort]
      have h0 : rest.length / 512 = 0 := Nat.div_eq_of_lt hshort
      rw [h0] at hstop
      rw [h0, extraEmpties_of_gt _ (by omega)]
      simp [Nat.mod_eq_of_lt hw]
    · rw [if_neg hshort]
      have hstop2 : ((w + 1) % 65536 + (rest.drop 512).length / 512 + 1) % 65536 > 1 := by
        simp only [List.length_drop]
        omega
      have hrec := ih (rest.length - 512) (by omega) (rest.drop 512) ((w + 1) % 65536)
        (by simp) (Nat.mod_lt _ (by omega)) hstop2
      rw [cons_getLast?_ne_nil _ (blockSequence_ne_nil ((w + 1) % 65536) (rest.drop 512)),
        hrec]
      have hlen512 : (rest.drop 512).length = rest.length - 512 := by simp
      rw [hlen512]
      have hnum : ((w + 1) % 65536 + (rest.length - 512) / 512) % 65536
          = (w + rest.length / 512) % 65536 := by omega
      rw [hnum]
      have hdrops : (rest.drop 512).drop (512 * ((rest.length - 512) / 512))
          = rest.drop (512 + 512 * ((rest.length - 512) / 512)) := by
        rw [List.drop_drop]
      have hmul : 512 + 512 * ((rest.length - 512) / 512) = 512 * (rest.length / 512) := by
        omega
      rw [hdrops, hmul]

/-- When the wrap anomaly does not occur, every packet before the last is
a full 512-byte block. -/
theorem blockSequence_dropLast_noWrap (n : Nat) : ∀ (rest : List Nat) (w : Nat),
    rest.length = n → (w + rest.length / 512 + 1) % 65536 > 1 →
    ∀ p ∈ (blockSequence w rest).dropLast, p.data.length = 512 := by
  induction n using Nat.strong_induction_on with
  | _ n ih =>
    intro rest w hlen hstop p hp
    rw [blockSequence_eq] at hp
    by_cases hshort : rest.length < 512
    · rw [if_pos hshort] at hp
      have h0 : rest.length / 512 = 0 := Nat.div_eq_of_lt hshort
      rw [h0] at hstop
      rw [extraEmpties_of_gt _ (by omega)] at hp
      simp at hp
    · rw [if_neg hshort] at hp
      have hstop2 : ((w + 1) % 65536 + (rest.drop 512).length / 512 + 1) % 65536 > 1 := by
        simp only [List.length_drop]
        omega
      rw [cons_dropLast_ne_nil _ (blockSequence_ne_nil ((w + 1) % 65536) (rest.drop 512))] at hp
      rcases List.mem_cons.mp hp with hhead | htail
      · subst hhead
        simp
        omega
      · exact ih (rest.length - 512) (by omega) (rest.drop 512) ((w + 1) % 65536)
          (by simp) hstop2 p htail

/-! ### Claim C2: end-of-file edge cases of the send session -/

/-- C2 counterexample: at file length 512 * 65534 the claimed "one extra
zero-length DATA packet" (65534 + 1 packets in total) is false of the
program: the u16 block counter wraps, the end-of-transfer check lands on
wrapped value (65534 + 2) % 65536 = 0, the `number > 1` stop guard fails
twice more, and the session emits 65537 = 65534 + 3 DATA packets (the
extra empty blocks are numbered 0 and 1). -/
theorem c2_counterexample :
    (sendFilePackets (List.replicate (512 * 65534) 0)).1.length = 65537 ∧
    (65537 : Nat) ≠ 65534 + 1 := by
  constructor
  · rewrite [sendFilePackets_eq]
    rewrite [blockSequence_length (List.replicate (512 * 65534) 0).length
      (List.replicate (512 * 65534) 0) 1 rfl]
    rewrite [List.length_replicate]
    rewrite [(by omega : (512 : Nat) * 65534 / 512 = 65534)]
    rewrite [(by omega : ((1 : Nat) + 65534 + 1) % 65536 = 0)]
    norm_num [extraEmpties]
  · decide

/-- C2 (amended): in the send (ReadRequest) session with a cooperative
channel, a 0-byte file produces exactly one DATA packet (block 1, empty
payload) and completes; a file of length `512 * k` (k at least 1, with the
wrapped check value `(k + 2) % 65536` above 1) produces `k` full 512-byte
DATA blocks followed by exactly one extra zero-length DATA packet (block
`(k + 1) % 65536`) and completes; a file whose length is not a multiple of
512 (with `(length / 512 + 2) % 65536` above 1) produces `length / 512`
full blocks and then the one short final block with no DATA packet after
it.  In general (fourth conjunct) the session always completes and the
packet count is `length / 512 + 1` plus the wrap-induced trailing empty
blocks: when the u16 counter wraps so that the end-of-transfer check lands
on 0 or 1, extra zero-length blocks numbered 0 and/or 1 are emitted before
the `number > 1` guard lets the loop stop. -/
theorem c2_send_eof_edge_cases :
    (sendFilePackets [] = ([⟨1, []⟩], true)) ∧
    (∀ (c : List Nat) (k : Nat), 1 ≤ k → c.length = 512 * k → (k + 2) % 65536 > 1 →
      (sendFilePackets c).2 = true ∧
      (sendFilePackets c).1.length = k + 1 ∧
      (sendFilePackets c).1.getLast? = some ⟨(k + 1) % 65536, []⟩ ∧
      (∀ p ∈ (sendFilePackets c).1.dropLast, p.data.length = 512)) ∧
    (∀ c : List Nat, ¬ 512 ∣ c.length → (c.length / 512 + 2) % 65536 > 1 →
      (sendFilePackets c).2 = true ∧
      (sendFilePackets c).1.length = c.length / 512 + 1 ∧
      (sendFilePackets c).1.getLast? =
        some ⟨(1 + c.length / 512) % 65536, c.drop (512 * (c.length / 512))⟩ ∧
      (c.drop (512 * (c.length / 512))).length = c.length % 512 ∧
      c.length % 512 < 512 ∧
      (∀ p ∈ (sendFilePackets c).1.dropLast, p.data.length = 512)) ∧
    (∀ c : List Nat,
      (sendFilePackets c).2 = true ∧
      (sendFilePackets c).1.length =
        c.length / 512 + 1 + (extraEmpties ((c.length / 512 + 2) % 65536)).length) := by
  refine ⟨?_, fun c k hk hlen hwrap => ?_, fun c hdvd hwrap => ?_, fun c => ?_⟩
  · rw [sendFilePackets_eq, blockSequence_eq]
    norm_num [extraEmpties]
  · rw [sendFilePackets_eq]
    have hq : c.length / 512 = k := by omega
    have hstop : (1 + c.length / 512 + 1) % 65536 > 1 := by
      rw [hq]
      omega
    refine ⟨rfl, ?_, ?_, ?_⟩
    · rw [blockSequence_length c.length c 1 rfl, hq]
      rw [extraEmpties_of_gt _ (by omega)]
      simp
    · rw [blockSequence_getLast_noWrap c.length c 1 rfl (by norm_num) hstop, hq]
      have hdropnil : c.drop (512 * k) = [] := List.drop_eq_nil_of_le (by omega)
      rw [hdropnil]
      congr 2
      omega
    · exact blockSequence_dropLast_noWrap c.length c 1 rfl hstop
  · rw [sendFilePackets_eq]
    have hmod : c.length % 512 ≠ 0 := fun h => hdvd (Nat.dvd_of_mod_eq_zero h)
    have hstop : (1 + c.length / 512 + 1) % 65536 > 1 := by omega
    refine ⟨rfl, ?_, ?_, ?_, by omega, ?_⟩
    · rw [blockSequence_length c.length c 1 rfl]
      rw [extraEmpties_of_gt _ (by omega)]
      simp
    · exact blockSequence_getLast_noWrap c.length c 1 rfl (by norm_num) hstop
    · simp
      omega
    · exact blockSequence_dropLast_noWrap c.length c 1 rfl hstop
  · rw [sendFilePackets_eq]
    refine ⟨rfl, ?_⟩
    rw [blockSequence_length c.length c 1 rfl]
    have harg : (1 + c.length / 512 + 1) % 65536 = (c.length / 512 + 2) % 65536 := by omega
    rw [harg]

/-- C2 witness: the multiple-of-512 case at a 512-byte file (k = 1, no
wrap) and the non-multiple case at a 1-byte file. -/
theorem c2_send_eof_edge_cases_witness :
    ((sendFilePackets (List.replicate 512 3)).2 = true ∧
      (sendFilePackets (List.replicate 512 3)).1.length = 2 ∧
      (sendFilePackets (List.replicate 512 3)).1.getLast? = some ⟨2 % 65536, []⟩ ∧
      (∀ p ∈ (sendFilePackets (List.replicate 512 3)).1.dropLast, p.data.length = 512)) ∧
    ((sendFilePackets [9]).2 = true ∧
      (sendFilePackets [9]).1.length = [9].length / 512 + 1) :=
  ⟨c2_send_eof_edge_cases.2.1 (List.replicate 512 3) 1 (by norm_num) (by norm_num)
     (by norm_num),
   ⟨(c2_send_eof_edge_cases.2.2.1 [9] (by decide) (by norm_num)).1,
    (c2_send_eof_edge_cases.2.2.1 [9] (by decide) (by norm_num)).2.1⟩⟩

/-! ### Transfer sessions

A session's interaction with the outside world is recorded as a trace of
events.  The channel argument `chan : Nat → Option (List Nat × Nat)`
yields, for the i-th `recv_from` call of the loop being modelled, `none`
when the call returned `Err` (a timeout) or `some (bytes, src)` for a
datagram.  Sends are assumed to succeed (socket errors other than receive
timeouts are out of scope of the claims), and file writes are modelled as
succeeding. -/

inductive Event where
  | send (bytes : List Nat) (dest : Nat)
  | recvTimeout
  | recvd (bytes : List Nat) (src : Nat)
  | fileCreate
  | fileWrite (bytes : List Nat)
deriving DecidableEq

/-- Encoded UnknownTransferID error packet sent to foreign senders
(transfer.rs lines 57-60 and 194-197, server/mod.rs lines 262-265). -/
def utidPacket : List Nat := tftpErrorAsPacket ⟨ErrorCode.UnknownTransferID, none⟩

/-- The fatal error constructed on retry exhaustion (transfer.rs
lines 95-98 and 204-207). -/
def exceededError : TftpError :=
  ⟨ErrorCode.Undefined, some (strBytes "Exceeded max send attempts")⟩

/-- Control outcome of one iteration of the ACK-wait loop of
`send_data_packet`. -/
inductive SdpStep where
  | looped
  | broke
  | panicked
deriving DecidableEq

/-- Result of `send_data_packet`: `ok` (fragment acknowledged), `fatal`
(the function returns the "Exceeded max send attempts" error), or
`panicked` (the Rust thread panicked). -/
inductive SdpResult where
  | ok
  | fatal
  | panicked
deriving DecidableEq

/-- One iteration of the ACK-wait loop of transfer.rs `send_data_packet`
(lines 180-201): send the DATA packet, then `recv_from(..).unwrap()` — a
receive error (timeout) PANICS the thread; otherwise decode the reply as
an ACK first (`continue` on failure, sending nothing), and only then check
the source address: a foreign source gets an UnknownTransferID packet; a
matching ACK from the real target breaks the loop. -/
def sdpBody (targetAddr : Nat) (packet : TftpData) (expected : TftpAck)
    (ev : Option (List Nat × Nat)) : List Event × SdpStep :=
  let sendEv := Event.send (tftpDataAsPacket packet) targetAddr
  match ev with
  | none => ([sendEv, Event.recvTimeout], SdpStep.panicked)
  | some (bytes, src) =>
    match tftpAckFromBuffer bytes with
    | none => ([sendEv, Event.recvd bytes src], SdpStep.looped)
    | some actualAck =>
      if src ≠ targetAddr then
        ([sendEv, Event.recvd bytes src, Event.send utidPacket src], SdpStep.looped)
      else if expected = actualAck then
        ([sendEv, Event.recvd bytes src], SdpStep.broke)
      else
        ([sendEv, Event.recvd bytes src], SdpStep.looped)

/-- The `while attempts <= config.send_retry_attempts` loop of
`send_data_packet` with `remaining = k + 1 - attempts` iterations left;
returns the final value of `attempts`, the result, and the event trace.
After a `break`, the source re-checks `attempts > k` and still reports the
exhaustion error when the break happened on the final attempt. -/
def sdpGo (k targetAddr : Nat) (packet : TftpData) (expected : TftpAck)
    (chan : Nat → Option (List Nat × Nat)) : Nat → Nat → Nat × SdpResult × List Event
  | 0, attempts => (attempts, if attempts > k then SdpResult.fatal else SdpResult.ok, [])
  | remaining + 1, attempts =>
    let r := sdpBody targetAddr packet expected (chan attempts)
    match r.2 with
    | SdpStep.panicked => (attempts + 1, SdpResult.panicked, r.1)
    | SdpStep.broke =>
      (attempts + 1, if attempts + 1 > k then SdpResult.fatal else SdpResult.ok, r.1)
    | SdpStep.looped =>
      let next := sdpGo k targetAddr packet expected chan remaining (attempts + 1)
      (next.1, next.2.1, r.1 ++ next.2.2)

/-- transfer.rs `send_data_packet` (lines 174-210): retry budget `k`,
expected ACK number is the packet's block number. -/
def sendDataPacket (k targetAddr : Nat) (packet : TftpData)
    (chan : Nat → Option (List Nat × Nat)) : Nat × SdpResult × List Event :=
  sdpGo k targetAddr packet ⟨packet.number⟩ chan (k + 1) 0

/-- Control outcome of one iteration of the receive loop. -/
inductive RfStep where
  | cont
  | finish
  | advance
deriving DecidableEq

/-- Outcome of one full run of the inner retry loop of `recieve_file`. -/
inductive RfInnerOut where
  | finished
  | advanced
  | exceeded
deriving DecidableEq

/-- Result of `recieve_file`: success, an error (FileExists or retry
exhaustion), or the model ran out of fuel for the unbounded outer loop. -/
inductive RfResult where
  | ok
  | err (e : TftpError)
  | outOfFuel
deriving DecidableEq

/-- One iteration of the inner retry loop of transfer.rs `recieve_file`
(lines 39-93): send `Ack\x7bnumber\x7d`; a receive error is treated as a timeout
and retried; a datagram from a foreign address gets UnknownTransferID and
is otherwise ignored (`continue`); then the datagram is decoded as DATA
(`continue` on failure); a block number other than `number + 1` is ignored
(`continue`); the expected block is written to the file, and a payload
shorter than 512 bytes finishes the transfer with a final
`Ack\x7bnumber + 1\x7d`, while a full 512-byte payload breaks to the next block.
Block numbers are u16: packets and comparisons use them modulo 65536. -/
def rfBody (addr number : Nat) (ev : Option (List Nat × Nat)) : List Event × RfStep :=
  let ackEv := Event.send (tftpAckAsPacket ⟨number % 65536⟩) addr
  match ev with
  | none => ([ackEv, Event.recvTimeout], RfStep.cont)
  | some (bytes, src) =>
    if src ≠ addr then
      ([ackEv, Event.recvd bytes src, Event.send utidPacket src], RfStep.cont)
    else
      match tftpDataFromBuffer bytes with
      | none => ([ackEv, Event.recvd bytes src], RfStep.cont)
      | some d =>
        if d.number ≠ (number + 1) % 65536 then
          ([ackEv, Event.recvd bytes src], RfStep.cont)
        else if d.data.length < 512 then
          ([ackEv, Event.recvd bytes src, Event.fileWrite d.data,
            Event.send (tftpAckAsPacket ⟨(number + 1) % 65536⟩) addr], RfStep.finish)
        else
          ([ackEv, Event.recvd bytes src, Event.fileWrite d.data], RfStep.advance)

/-- The `while attempts <= config.send_retry_attempts` inner loop of
transfer.rs `recieve_file`, with `remaining = k + 1 - attempts` iterations
left and `rIdx` the index of the next receive on the channel; returns the
loop outcome, the next receive index, and the trace.  On a `break` after
accepting a full block the source still re-checks `attempts > k`, so a
block accepted on the final attempt is reported as exhaustion. -/
def rfGo (k addr : Nat) (chan : Nat → Option (List Nat × Nat)) (number : Nat) :
    Nat → Nat → Nat → RfInnerOut × Nat × List Event
  | 0, _, rIdx => (RfInnerOut.exceeded, rIdx, [])
  | remaining + 1, attempts, rIdx =>
    let r := rfBody addr number (chan rIdx)
    match r.2 with
    | RfStep.cont =>
      let next := rfGo k addr chan number remaining (attempts + 1) (rIdx + 1)
      (next.1, next.2.1, r.1 ++ next.2.2)
    | RfStep.finish => (RfInnerOut.finished, rIdx + 1, r.1)
    | RfStep.advance =>
      if attempts + 1 > k then (RfInnerOut.exceeded, rIdx + 1, r.1)
      else (RfInnerOut.advanced, rIdx + 1, r.1)

/-- The outer `for number in 0..` loop of transfer.rs `recieve_file`;
`fuel` bounds the number of blocks processed. -/
def rfOuter (k addr : Nat) (chan : Nat → Option (List Nat × Nat)) :
    Nat → Nat → Nat → RfResult × List Event
  | 0, _, _ => (RfResult.outOfFuel, [])
  | fuel + 1, number, rIdx =>
    let r := rfGo k addr chan number (k + 1) 0 rIdx
    match r.1 with
    | RfInnerOut.finished => (RfResult.ok, r.2.2)
    | RfInnerOut.exceeded => (RfResult.err exceededError, r.2.2)
    | RfInnerOut.advanced =>
      let next := rfOuter k addr chan fuel (number + 1) r.2.1
      (next.1, r.2.2 ++ next.2)

/-- transfer.rs `recieve_file` (lines 16-102): when the target path
already exists the FileExists error is returned before anything else
happens (no file created, no network receive, no send); otherwise the
destination file is created and the block loop runs.  `File::create` is
modelled as succeeding. -/
def recieveFile (fuel k addr : Nat) (chan : Nat → Option (List Nat × Nat))
    (fileExists : Bool) : RfResult × List Event :=
  if fileExists then (RfResult.err ⟨ErrorCode.FileExists, none⟩, [])
  else
    let r := rfOuter k addr chan fuel 0 0
    (r.1, Event.fileCreate :: r.2)

/-- server/mod.rs `handle_write_request` (lines 188-221) after a
successful request parse, composed with the transfer-module
`recieve_file`: on `Err(e)` the handler sends `e.as_packet()` to the
client as a courtesy before the session thread ends. -/
def handleWriteSession (fuel k addr : Nat) (chan : Nat → Option (List Nat × Nat))
    (fileExists : Bool) : List Event :=
  match recieveFile fuel k addr chan fileExists with
  | (RfResult.ok, evs) => evs
  | (RfResult.err e, evs) => evs ++ [Event.send (tftpErrorAsPacket e) addr]
  | (RfResult.outOfFuel, evs) => evs

/-- One iteration of the inner loop of the DUPLICATE `recieve_file` in
server/mod.rs (lines 245-291).  Unlike the transfer.rs version, a
datagram from a foreign address gets UnknownTransferID but is NOT skipped:
the same foreign bytes then flow into the DATA decode, and a foreign
packet carrying block `number + 1` is written to the file (`file.write`,
result ignored) and can finish the transfer. -/
def srvRfBody (addr number : Nat) (ev : Option (List Nat × Nat)) : List Event × RfStep :=
  let ackEv := Event.send (tftpAckAsPacket ⟨number % 65536⟩) addr
  match ev with
  | none => ([ackEv, Event.recvTimeout], RfStep.cont)
  | some (bytes, src) =>
    let pre := [ackEv, Event.recvd bytes src] ++
      (if src ≠ addr then [Event.send utidPacket src] else [])
    match tftpDataFromBuffer bytes with
    | none => (pre, RfStep.cont)
    | some d =>
      if d.number ≠ (number + 1) % 65536 then (pre, RfStep.cont)
      else if d.data.length < 512 then
        (pre ++ [Event.fileWrite d.data,
          Event.send (tftpAckAsPacket ⟨(number + 1) % 65536⟩) addr], RfStep.finish)
      else (pre ++ [Event.fileWrite d.data], RfStep.advance)

/-! ### Request parser (server/mod.rs `parse_rw_request`, lines 153-186) -/

/-- Transfer modes from src/lib/codes.rs. -/
inductive TransferMode where
  | netAscii
  | octet
deriving DecidableEq

/-- Outcome of `parse_rw_request`: `panicked` models the
`str::from_utf8(..).unwrap()` calls, which panic the session thread on
malformed UTF-8 instead of returning an error. -/
inductive ParseOutcome where
  | ok (filename : List Nat) (mode : TransferMode)
  | err (message : List Nat)
  | panicked
deriving DecidableEq

/-- ASCII lowercasing of the mode bytes.  Rust `to_lowercase` performs
Unicode lowercasing, but no non-ASCII byte sequence can lowercase to any
of the pure-ASCII keywords "netascii" / "octet" / "email", so branch
selection agrees. -/
def asciiLower (l : List Nat) : List Nat :=
  l.map (fun b => if 65 ≤ b ∧ b ≤ 90 then b + 32 else b)

/-- server/mod.rs `parse_rw_request`: drop the 2 opcode bytes of the
received prefix, split on NUL bytes into at most 3 fields (`splitn`; the
first `parts.next()` always yields a field, so the "Invalid filename"
branch of the source is unreachable), then `str::from_utf8(..).unwrap()`
each field — malformed UTF-8 PANICS — and match the lowercased mode. -/
def parseRwRequest (packet : List Nat) (len : Nat) : ParseOutcome :=
  let p := (packet.take len).drop 2
  let filenameBuff := p.takeWhile (fun b => b != 0)
  if validUtf8 filenameBuff = false then ParseOutcome.panicked
  else
    match p.dropWhile (fun b => b != 0) with
    | [] => ParseOutcome.err (strBytes "Invalid mode string")
    | _ :: rest =>
      let modeBuff := rest.takeWhile (fun b => b != 0)
      if validUtf8 modeBuff = false then ParseOutcome.panicked
      else
        let lower := asciiLower modeBuff
        if lower = strBytes "netascii" then ParseOutcome.ok filenameBuff TransferMode.netAscii
        else if lower = strBytes "octet" then ParseOutcome.ok filenameBuff TransferMode.octet
        else if lower = strBytes "email" then
          ParseOutcome.err (strBytes "Email transfer mode is not supported")
        else ParseOutcome.err (strBytes "Unknown transfer mode")

/-! ### Claim C3: retry budget -/

/-- C3: behaviour of the retry loops on a channel that never delivers a
valid reply.  First conjunct (the bug): in the send path with retry budget
k = 5, a channel on which every receive TIMES OUT makes
`send_data_packet` panic (`recv_from(..).unwrap()` on `Err`) after a
single send attempt — not terminate with a fatal error after k+1 = 6
attempts as the claim states.  Second and third conjuncts (the cases the
code does satisfy): with k = 2, a channel delivering only undecodable
datagrams makes the send path terminate fatally after exactly 3 = k+1 DATA
sends, and an all-timeout channel makes the receive path's inner loop
exhaust after exactly 3 = k+1 ACK sends. -/
theorem c3_retry_budget_behavior :
    sendDataPacket 5 0 ⟨1, []⟩ (fun _ => none) =
      (1, SdpResult.panicked,
       [Event.send (tftpDataAsPacket ⟨1, []⟩) 0, Event.recvTimeout]) ∧
    sendDataPacket 2 0 ⟨1, []⟩ (fun _ => some ([9, 9], 0)) =
      (3, SdpResult.fatal,
       [Event.send (tftpDataAsPacket ⟨1, []⟩) 0, Event.recvd [9, 9] 0,
        Event.send (tftpDataAsPacket ⟨1, []⟩) 0, Event.recvd [9, 9] 0,
        Event.send (tftpDataAsPacket ⟨1, []⟩) 0, Event.recvd [9, 9] 0]) ∧
    rfGo 2 0 (fun _ => none) 0 3 0 0 =
      (RfInnerOut.exceeded, 3,
       [Event.send (tftpAckAsPacket ⟨0⟩) 0, Event.recvTimeout,
        Event.send (tftpAckAsPacket ⟨0⟩) 0, Event.recvTimeout,
        Event.send (tftpAckAsPacket ⟨0⟩) 0, Event.recvTimeout]) := by
  refine ⟨rfl, rfl, rfl⟩

/-! ### Claim C6: malformed UTF-8 in request fields -/

/-- C6: `parse_rw_request` PANICS (via `str::from_utf8(..).unwrap()`) on
a request whose filename field is the invalid UTF-8 byte 0xFF, and
likewise when the mode field is invalid UTF-8 — it does not return an
error result to be surfaced to the peer. -/
theorem c6_utf8_panics :
    parseRwRequest [0, 2, 255, 0, 111, 99, 116, 101, 116, 0] 10 = ParseOutcome.panicked ∧
    parseRwRequest [0, 2, 97, 0, 255, 0] 6 = ParseOutcome.panicked := by
  refine ⟨rfl, rfl⟩

/-! ### Claim C7: existing-file guard -/

/-- C7: for every retry budget, client address and channel, a receive
session whose target path already exists returns the FileExists error with
an EMPTY event trace: no file is created, no byte is received from the
network, nothing is written, and nothing is sent by `recieve_file` itself
— the existing file is untouched. -/
theorem c7_existing_file_guard (fuel k addr : Nat) (chan : Nat → Option (List Nat × Nat)) :
    recieveFile fuel k addr chan true = (RfResult.err ⟨ErrorCode.FileExists, none⟩, []) := by
  rfl

/-! ### Claim C10: decode is checked before the source address -/

/-- C10: in one iteration of the send path's ACK-wait loop, the inbound
reply is checked for ACK decodability first and for its source address
second: a reply that does not decode as a well-formed 4-byte ACK is
skipped with no send after the receive (even when it comes from a foreign
source, no UnknownTransferID is produced), while a reply that does decode
as an ACK and comes from a foreign source gets exactly the
UnknownTransferID response. -/
theorem c10_decode_before_address :
    (∀ (targetAddr : Nat) (packet : TftpData) (expected : TftpAck)
        (bytes : List Nat) (src : Nat),
      tftpAckFromBuffer bytes = none →
      sdpBody targetAddr packet expected (some (bytes, src)) =
        ([Event.send (tftpDataAsPacket packet) targetAddr, Event.recvd bytes src],
         SdpStep.looped)) ∧
    (∀ (targetAddr : Nat) (packet : TftpData) (expected : TftpAck)
        (bytes : List Nat) (src : Nat) (a : TftpAck),
      tftpAckFromBuffer bytes = some a → src ≠ targetAddr →
      sdpBody targetAddr packet expected (some (bytes, src)) =
        ([Event.send (tftpDataAsPacket packet) targetAddr, Event.recvd bytes src,
          Event.send utidPacket src],
         SdpStep.looped)) := by
  constructor
  · intro targetAddr packet expected bytes src h
    simp only [sdpBody, h]
  · intro targetAddr packet expected bytes src a h hs
    simp only [sdpBody, h]
    rw [if_pos hs]

/-- C10 witness: a 3-byte foreign datagram gets no response; a well-formed
foreign ACK gets UnknownTransferID. -/
theorem c10_decode_before_address_witness :
    sdpBody 0 ⟨1, []⟩ ⟨1⟩ (some ([9, 9, 9], 5)) =
      ([Event.send (tftpDataAsPacket ⟨1, []⟩) 0, Event.recvd [9, 9, 9] 5],
       SdpStep.looped) ∧
    sdpBody 0 ⟨1, []⟩ ⟨1⟩ (some ([0, 4, 0, 7], 5)) =
      ([Event.send (tftpDataAsPacket ⟨1, []⟩) 0, Event.recvd [0, 4, 0, 7] 5,
        Event.send utidPacket 5],
       SdpStep.looped) :=
  ⟨c10_decode_before_address.1 0 ⟨1, []⟩ ⟨1⟩ [9, 9, 9] 5 (by decide),
   c10_decode_before_address.2 0 ⟨1, []⟩ ⟨1⟩ [0, 4, 0, 7] 5 ⟨7⟩ (by decide) (by decide)⟩

/-! ### Claim C4: foreign-sender handling -/

/-- Helper: on a channel that always delivers the same validly-decoding
ACK from a foreign source, every iteration of the send path's ACK-wait
loop sends the DATA packet, replies UnknownTransferID, and loops — so the
whole retry budget is consumed by foreign packets alone. -/
theorem sdpGo_foreign (k targetAddr : Nat) (packet : TftpData) (expected : TftpAck)
    (bytes : List Nat) (src : Nat) (a : TftpAck)
    (hdec : tftpAckFromBuffer bytes = some a) (hsrc : src ≠ targetAddr) :
    ∀ remaining attempts,
      sdpGo k targetAddr packet expected (fun _ => some (bytes, src)) remaining attempts =
        (attempts + remaining,
         if attempts + remaining > k then SdpResult.fatal else SdpResult.ok,
         (List.replicate remaining
           [Event.send (tftpDataAsPacket packet) targetAddr, Event.recvd bytes src,
            Event.send utidPacket src]).flatten) := by
  intro remaining
  induction remaining with
  | zero => intro attempts; simp [sdpGo]
  | succ n ih =>
    intro attempts
    have hbody : sdpBody targetAddr packet expected (some (bytes, src)) =
        ([Event.send (tftpDataAsPacket packet) targetAddr, Event.recvd bytes src,
          Event.send utidPacket src], SdpStep.looped) := by
      simp only [sdpBody, hdec]
      rw [if_pos hsrc]
    simp only [sdpGo, hbody, ih (attempts + 1), List.replicate_succ, List.flatten_cons]
    rw [(by omega : attempts + 1 + n = attempts + (n + 1))]

/-- C4 counterexample: (1) with retry budget k = 0, a channel delivering
only a well-formed ACK from foreign address 5 makes `send_data_packet`
terminate fatally after its single attempt — the foreign packet consumed a
local retry attempt, instead of the session continuing to wait as the
claim states; (2) in the server-module receive loop, a well-formed DATA
packet for block 1 arriving from foreign address 5 is not only answered
with UnknownTransferID but is also WRITTEN to the destination file of the
session with client 7 and finishes that transfer — altering A's state. -/
theorem c4_counterexample :
    sendDataPacket 0 0 ⟨1, []⟩ (fun _ => some ([0, 4, 0, 1], 5)) =
      (1, SdpResult.fatal,
       [Event.send (tftpDataAsPacket ⟨1, []⟩) 0, Event.recvd [0, 4, 0, 1] 5,
        Event.send utidPacket 5]) ∧
    srvRfBody 7 0 (some (tftpDataAsPacket ⟨1, [9]⟩, 5)) =
      ([Event.send (tftpAckAsPacket ⟨0⟩) 7, Event.recvd (tftpDataAsPacket ⟨1, [9]⟩) 5,
        Event.send utidPacket 5, Event.fileWrite [9],
        Event.send (tftpAckAsPacket ⟨1⟩) 7], RfStep.finish) := by
  refine ⟨rfl, rfl⟩

/-- C4 (amended): on receipt of a well-formed packet from a foreign peer
B, the session replies UnknownTransferID to B.  In the transfer-module
loops the packet causes no file write, no block advance and no completion
(first two conjuncts), but the iteration that received it does consume one
local retry attempt — with every receive delivering a foreign-sourced
valid ACK, the send path resends the DATA packet each iteration and
terminates fatally after k+1 attempts (third conjunct).  In the
server-module receive loop, the foreign datagram additionally flows into
the DATA decode: a foreign DATA packet carrying block n+1 is written to
A's file and, when shorter than 512 bytes, completes A's transfer (fourth
conjunct). -/
theorem c4_amended_foreign_handling :
    (∀ (targetAddr : Nat) (packet : TftpData) (expected : TftpAck)
        (bytes : List Nat) (src : Nat) (a : TftpAck),
      tftpAckFromBuffer bytes = some a → src ≠ targetAddr →
      sdpBody targetAddr packet expected (some (bytes, src)) =
        ([Event.send (tftpDataAsPacket packet) targetAddr, Event.recvd bytes src,
          Event.send utidPacket src], SdpStep.looped)) ∧
    (∀ (addr number : Nat) (bytes : List Nat) (src : Nat),
      src ≠ addr →
      rfBody addr number (some (bytes, src)) =
        ([Event.send (tftpAckAsPacket ⟨number % 65536⟩) addr, Event.recvd bytes src,
          Event.send utidPacket src], RfStep.cont)) ∧
    (∀ (k targetAddr : Nat) (packet : TftpData) (bytes : List Nat) (src : Nat) (a : TftpAck),
      tftpAckFromBuffer bytes = some a → src ≠ targetAddr →
      sendDataPacket k targetAddr packet (fun _ => some (bytes, src)) =
        (k + 1, SdpResult.fatal,
         (List.replicate (k + 1)
           [Event.send (tftpDataAsPacket packet) targetAddr, Event.recvd bytes src,
            Event.send utidPacket src]).flatten)) ∧
    (∀ (addr number : Nat) (payload : List Nat) (src : Nat),
      src ≠ addr → payload.length < 512 →
      srvRfBody addr number (some (tftpDataAsPacket ⟨(number + 1) % 65536, payload⟩, src)) =
        ([Event.send (tftpAckAsPacket ⟨number % 65536⟩) addr,
          Event.recvd (tftpDataAsPacket ⟨(number + 1) % 65536, payload⟩) src,
          Event.send utidPacket src, Event.fileWrite payload,
          Event.send (tftpAckAsPacket ⟨(number + 1) % 65536⟩) addr], RfStep.finish)) := by
  refine ⟨?_, ?_, ?_, ?_⟩
  · intro targetAddr packet expected bytes src a hdec hsrc
    simp only [sdpBody, hdec]
    rw [if_pos hsrc]
  · intro addr number bytes src hsrc
    simp only [rfBody]
    rw [if_pos hsrc]
  · intro k targetAddr packet bytes src a hdec hsrc
    unfold sendDataPacket
    rw [sdpGo_foreign k targetAddr packet ⟨packet.number⟩ bytes src a hdec hsrc (k + 1) 0]
    simp
  · intro addr number payload src hsrc hlen
    have hdec : tftpDataFromBuffer (tftpDataAsPacket ⟨(number + 1) % 65536, payload⟩)
        = some ⟨(number + 1) % 65536, payload⟩ :=
      data_roundtrip ((number + 1) % 65536) payload (Nat.mod_lt _ (by omega))
    simp only [srvRfBody, hdec]
    rw [if_pos hsrc]
    simp [hlen]

/-- C4 witness: the amended foreign-handling facts at concrete inputs. -/
theorem c4_amended_foreign_handling_witness :
    sdpBody 0 ⟨1, []⟩ ⟨1⟩ (some ([0, 4, 0, 1], 5)) =
      ([Event.send (tftpDataAsPacket ⟨1, []⟩) 0, Event.recvd [0, 4, 0, 1] 5,
        Event.send utidPacket 5], SdpStep.looped) ∧
    rfBody 7 0 (some ([1], 5)) =
      ([Event.send (tftpAckAsPacket ⟨0 % 65536⟩) 7, Event.recvd [1] 5,
        Event.send utidPacket 5], RfStep.cont) ∧
    sendDataPacket 1 0 ⟨1, []⟩ (fun _ => some ([0, 4, 0, 1], 5)) =
      (2, SdpResult.fatal,
       (List.replicate 2
         [Event.send (tftpDataAsPacket ⟨1, []⟩) 0, Event.recvd [0, 4, 0, 1] 5,
          Event.send utidPacket 5]).flatten) ∧
    srvRfBody 7 0 (some (tftpDataAsPacket ⟨(0 + 1) % 65536, [9]⟩, 5)) =
      ([Event.send (tftpAckAsPacket ⟨0 % 65536⟩) 7,
        Event.recvd (tftpDataAsPacket ⟨(0 + 1) % 65536, [9]⟩) 5,
        Event.send utidPacket 5, Event.fileWrite [9],
        Event.send (tftpAckAsPacket ⟨(0 + 1) % 65536⟩) 7], RfStep.finish) :=
  ⟨c4_amended_foreign_handling.1 0 ⟨1, []⟩ ⟨1⟩ [0, 4, 0, 1] 5 ⟨1⟩ (by decide) (by decide),
   c4_amended_foreign_handling.2.1 7 0 [1] 5 (by decide),
   c4_amended_foreign_handling.2.2.1 1 0 ⟨1, []⟩ [0, 4, 0, 1] 5 ⟨1⟩ (by decide) (by decide),
   c4_amended_foreign_handling.2.2.2 7 0 [9] 5 (by decide) (by decide)⟩

/-! ### Claim C8: stale DATA packets in the receive loop -/

/-- Helper: every iteration of the receive loop begins by (re)sending
`Ack\x7bnumber\x7d`, whatever the receive yields. -/
theorem rfBody_trace_head (addr number : Nat) (ev : Option (List Nat × Nat)) :
    ∃ t, (rfBody addr number ev).1
      = Event.send (tftpAckAsPacket ⟨number % 65536⟩) addr :: t := by
  rcases ev with _ | ⟨bytes, src⟩
  · exact ⟨[Event.recvTimeout], rfl⟩
  · simp only [rfBody]
    split_ifs with h
    · exact ⟨_, rfl⟩
    · rcases hdec : tftpDataFromBuffer bytes with _ | d
      · exact ⟨_, rfl⟩
      · simp only []
        split_ifs <;> exact ⟨_, rfl⟩

/-- Helper: a payload is written by the receive loop only if some received
datagram came from the session's client address and decoded as a DATA
packet whose block number is exactly `(number + 1) % 65536` with that
payload. -/
theorem rfGo_write_provenance (k addr : Nat) (chan : Nat → Option (List Nat × Nat))
    (number : Nat) : ∀ (remaining attempts rIdx : Nat) (payload : List Nat),
    Event.fileWrite payload ∈ (rfGo k addr chan number remaining attempts rIdx).2.2 →
    ∃ (i : Nat) (bytes : List Nat) (d : TftpData),
      chan i = some (bytes, addr) ∧ tftpDataFromBuffer bytes = some d ∧
      d.number = (number + 1) % 65536 ∧ d.data = payload := by
  intro remaining
  induction remaining with
  | zero =>
    intro attempts rIdx payload hmem
    simp [rfGo] at hmem
  | succ n ih =>
    intro attempts rIdx payload hmem
    rcases hchan : chan rIdx with _ | ⟨bytes, src⟩
    · simp only [rfGo, rfBody, hchan] at hmem
      simp only [List.cons_append, List.nil_append, List.mem_cons] at hmem
      rcases hmem with h | h | h
      · exact absurd h (by simp)
      · exact absurd h (by simp)
      · exact ih (attempts + 1) (rIdx + 1) payload h
    · by_cases hsrc : src ≠ addr
      · have hbody : rfBody addr number (some (bytes, src)) =
            ([Event.send (tftpAckAsPacket ⟨number % 65536⟩) addr, Event.recvd bytes src,
              Event.send utidPacket src], RfStep.cont) := by
          simp only [rfBody]
          rw [if_pos hsrc]
        simp only [rfGo, hchan, hbody] at hmem
        simp only [List.cons_append, List.nil_append, List.mem_cons] at hmem
        rcases hmem with h | h | h | h
        · exact absurd h (by simp)
        · exact absurd h (by simp)
        · exact absurd h (by simp)
        · exact ih (attempts + 1) (rIdx + 1) payload h
      · push_neg at hsrc
        rw [hsrc] at hchan
        rcases hdec : tftpDataFromBuffer bytes with _ | d
        · have hbody : rfBody addr number (some (bytes, addr)) =
              ([Event.send (tftpAckAsPacket ⟨number % 65536⟩) addr,
                Event.recvd bytes addr], RfStep.cont) := by
            simp only [rfBody, hdec]
            rw [if_neg (by simp)]
          simp only [rfGo, hchan, hbody] at hmem
          simp only [List.cons_append, List.nil_append, List.mem_cons] at hmem
          rcases hmem with h | h | h
          · exact absurd h (by simp)
          · exact absurd h (by simp)
          · exact ih (attempts + 1) (rIdx + 1) payload h
        · by_cases hnum : d.number ≠ (number + 1) % 65536
          · have hbody : rfBody addr number (some (bytes, addr)) =
                ([Event.send (tftpAckAsPacket ⟨number % 65536⟩) addr,
                  Event.recvd bytes addr], RfStep.cont) := by
              simp only [rfBody, hdec]
              rw [if_neg (by simp), if_pos hnum]
            simp only [rfGo, hchan, hbody] at hmem
            simp only [List.cons_append, List.nil_append, List.mem_cons] at hmem
            rcases hmem with h | h | h
            · exact absurd h (by simp)
            · exact absurd h (by simp)
            · exact ih (attempts + 1) (rIdx + 1) payload h
          · push_neg at hnum
            by_cases hlen : d.data.length < 512
            · have hbody : rfBody addr number (some (bytes, addr)) =
                  ([Event.send (tftpAckAsPacket ⟨number % 65536⟩) addr,
                    Event.recvd bytes addr, Event.fileWrite d.data,
                    Event.send (tftpAckAsPacket ⟨(number + 1) % 65536⟩) addr],
                   RfStep.finish) := by
                simp only [rfBody, hdec]
                rw [if_neg (by simp), if_neg (by simp [hnum]), if_pos hlen]
              simp only [rfGo, hchan, hbody] at hmem
              simp only [List.mem_cons] at hmem
              rcases hmem with h | h | h | h | h
              · exact absurd h (by simp)
              · exact absurd h (by simp)
              · exact ⟨rIdx, bytes, d, hchan, hdec, hnum, by injection h.symm⟩
              · exact absurd h (by simp)
              · simp at h
            · have hbody : rfBody addr number (some (bytes, addr)) =
                  ([Event.send (tftpAckAsPacket ⟨number % 65536⟩) addr,
                    Event.recvd bytes addr, Event.fileWrite d.data],
                   RfStep.advance) := by
                simp only [rfBody, hdec]
                rw [if_neg (by simp), if_neg (by simp [hnum]), if_neg hlen]
              simp only [rfGo, hchan, hbody] at hmem
              by_cases hatt : attempts + 1 > k
              · rw [if_pos hatt] at hmem
                simp only [List.mem_cons] at hmem
                rcases hmem with h | h | h | h
                · exact absurd h (by simp)
                · exact absurd h (by simp)
                · exact ⟨rIdx, bytes, d, hchan, hdec, hnum, by injection h.symm⟩
                · simp at h
              · rw [if_neg hatt] at hmem
                simp only [List.mem_cons] at hmem
                rcases hmem with h | h | h | h
                · exact absurd h (by simp)
                · exact absurd h (by simp)
                · exact ⟨rIdx, bytes, d, hchan, hdec, hnum, by injection h.symm⟩
                · simp at h

/-- C8 counterexample: with retry budget k = 1, a stale DATA packet
(block 5 while block 1 is expected) from the real client is received and
the very next event — before any timeout — is an immediate re-send of
`Ack\x7b0\x7d`, refuting "no immediate re-ACK is triggered by that datagram";
the trace also shows the stale packet consumed one of the two attempts
(the loop exhausts after a single further timeout) while writing nothing. -/
theorem c8_counterexample :
    rfGo 1 7 (fun i => if i = 0 then some (tftpDataAsPacket ⟨5, [1, 2, 3]⟩, 7) else none)
        0 2 0 0 =
      (RfInnerOut.exceeded, 2,
       [Event.send (tftpAckAsPacket ⟨0⟩) 7,
        Event.recvd (tftpDataAsPacket ⟨5, [1, 2, 3]⟩) 7,
        Event.send (tftpAckAsPacket ⟨0⟩) 7, Event.recvTimeout]) := by
  rfl

/-- C8 (amended): in the receive session expecting block n+1, a datagram
from the client that decodes as DATA with a block number other than
(n+1) % 65536 is ignored for file and counter purposes — nothing is
written and the loop outcome is `cont`, leaving the expected block
unchanged (first conjunct); however the arrival consumes a retry attempt
and the loop immediately re-sends `Ack\x7bn\x7d` before waiting again (second
conjunct: the first three trace events are Ack, the stale datagram, Ack);
a payload is appended to the destination file only when a datagram from
the client decodes to block number exactly (n+1) % 65536 (third conjunct),
so within one session blocks are accepted strictly in order. -/
theorem c8_amended_stale_data :
    (∀ (addr number : Nat) (bytes : List Nat) (d : TftpData),
      tftpDataFromBuffer bytes = some d → d.number ≠ (number + 1) % 65536 →
      rfBody addr number (some (bytes, addr)) =
        ([Event.send (tftpAckAsPacket ⟨number % 65536⟩) addr, Event.recvd bytes addr],
         RfStep.cont)) ∧
    (∀ (k addr number rIdx : Nat) (chan : Nat → Option (List Nat × Nat))
        (bytes : List Nat) (d : TftpData),
      1 ≤ k → chan rIdx = some (bytes, addr) → tftpDataFromBuffer bytes = some d →
      d.number ≠ (number + 1) % 65536 →
      ((rfGo k addr chan number (k + 1) 0 rIdx).2.2).take 3 =
        [Event.send (tftpAckAsPacket ⟨number % 65536⟩) addr, Event.recvd bytes addr,
         Event.send (tftpAckAsPacket ⟨number % 65536⟩) addr]) ∧
    (∀ (k addr number remaining attempts rIdx : Nat)
        (chan : Nat → Option (List Nat × Nat)) (payload : List Nat),
      Event.fileWrite payload ∈ (rfGo k addr chan number remaining attempts rIdx).2.2 →
      ∃ (i : Nat) (bytes : List Nat) (d : TftpData),
        chan i = some (bytes, addr) ∧ tftpDataFromBuffer bytes = some d ∧
        d.number = (number + 1) % 65536 ∧ d.data = payload) := by
  have hstale : ∀ (addr number : Nat) (bytes : List Nat) (d : TftpData),
      tftpDataFromBuffer bytes = some d → d.number ≠ (number + 1) % 65536 →
      rfBody addr number (some (bytes, addr)) =
        ([Event.send (tftpAckAsPacket ⟨number % 65536⟩) addr, Event.recvd bytes addr],
         RfStep.cont) := by
    intro addr number bytes d hdec hnum
    simp only [rfBody, hdec]
    rw [if_neg (by simp), if_pos hnum]
  refine ⟨hstale, ?_, ?_⟩
  · intro k addr number rIdx chan bytes d hk hchan hdec hnum
    obtain ⟨k1, rfl⟩ : ∃ k1, k = k1 + 1 := ⟨k - 1, by omega⟩
    simp only [rfGo, hchan, hstale addr number bytes d hdec hnum]
    obtain ⟨t, ht⟩ := rfBody_trace_head addr number (chan (rIdx + 1))
    simp only [rfGo, ht]
    rcases hstep : (rfBody addr number (chan (rIdx + 1))).2 with _ | _ | _ <;>
      simp only [hstep] <;> (try split_ifs) <;> simp
  · intro k addr number remaining attempts rIdx chan payload hmem
    exact rfGo_write_provenance k addr chan number remaining attempts rIdx payload hmem

/-- C8 witness: the amended stale-DATA facts at concrete inputs. -/
theorem c8_amended_stale_data_witness :
    rfBody 7 0 (some (tftpDataAsPacket ⟨5, [1, 2, 3]⟩, 7)) =
      ([Event.send (tftpAckAsPacket ⟨0 % 65536⟩) 7,
        Event.recvd (tftpDataAsPacket ⟨5, [1, 2, 3]⟩) 7], RfStep.cont) ∧
    ((rfGo 1 7 (fun _ => some (tftpDataAsPacket ⟨5, [1, 2, 3]⟩, 7)) 0 2 0 0).2.2).take 3 =
      [Event.send (tftpAckAsPacket ⟨0 % 65536⟩) 7,
       Event.recvd (tftpDataAsPacket ⟨5, [1, 2, 3]⟩) 7,
       Event.send (tftpAckAsPacket ⟨0 % 65536⟩) 7] ∧
    (Event.fileWrite [4] ∈
        (rfGo 1 7 (fun _ => some (tftpDataAsPacket ⟨1, [4]⟩, 7)) 0 2 0 0).2.2 →
      ∃ (i : Nat) (bytes : List Nat) (d : TftpData),
        (fun _ : Nat => some (tftpDataAsPacket ⟨1, [4]⟩, 7)) i = some (bytes, 7) ∧
        tftpDataFromBuffer bytes = some d ∧
        d.number = (0 + 1) % 65536 ∧ d.data = [4]) :=
  ⟨c8_amended_stale_data.1 7 0 (tftpDataAsPacket ⟨5, [1, 2, 3]⟩) ⟨5, [1, 2, 3]⟩
     (by decide) (by decide),
   c8_amended_stale_data.2.1 1 7 0 0 (fun _ => some (tftpDataAsPacket ⟨5, [1, 2, 3]⟩, 7))
     (tftpDataAsPacket ⟨5, [1, 2, 3]⟩) ⟨5, [1, 2, 3]⟩ (by decide) rfl (by decide) (by decide),
   fun hmem => c8_amended_stale_data.2.2 1 7 0 2 0 0
     (fun _ => some (tftpDataAsPacket ⟨1, [4]⟩, 7)) [4] hmem⟩

/-! ### Claim C9: behaviour after retry exhaustion -/

/-- Helper: on a channel where every receive times out, the receive
loop's inner retry loop sends `Ack\x7bnumber\x7d` once per remaining attempt and
then reports exhaustion. -/
theorem rfGo_timeout (k addr : Nat) (chan : Nat → Option (List Nat × Nat))
    (number : Nat) (hchan : ∀ i, chan i = none) :
    ∀ remaining attempts rIdx,
      rfGo k addr chan number remaining attempts rIdx =
        (RfInnerOut.exceeded, rIdx + remaining,
         (List.replicate remaining
           [Event.send (tftpAckAsPacket ⟨number % 65536⟩) addr,
            Event.recvTimeout]).flatten) := by
  intro remaining
  induction remaining with
  | zero => intro attempts rIdx; simp [rfGo]
  | succ n ih =>
    intro attempts rIdx
    have hbody : rfBody addr number (chan rIdx) =
        ([Event.send (tftpAckAsPacket ⟨number % 65536⟩) addr, Event.recvTimeout],
         RfStep.cont) := by
      rw [hchan rIdx]
      rfl
    simp only [rfGo, hbody, ih (attempts + 1) (rIdx + 1), List.replicate_succ,
      List.flatten_cons]
    rw [(by omega : rIdx + 1 + n = rIdx + (n + 1))]

/-- C9 counterexample: with retry budget k = 0 and an all-timeout channel,
after the write session exhausts its budget on block 0 it does NOT simply
stop sending: the final trace event is one more packet — the encoded
"Exceeded max send attempts" ERROR — sent to the client (address 9) by
`handle_write_request`'s `Err` branch, refuting "it sends no further
packets to any peer (in particular no ERROR packet to the client)". -/
theorem c9_counterexample :
    handleWriteSession 1 0 9 (fun _ => none) false =
      [Event.fileCreate, Event.send (tftpAckAsPacket ⟨0⟩) 9, Event.recvTimeout,
       Event.send (tftpErrorAsPacket exceededError) 9] := by
  rfl

/-- C9 (amended): after a write session exhausts its retry budget, the
transfer function itself terminates with the fatal "Exceeded max send
attempts" error having sent exactly k+1 ACK attempts and nothing else; the
request handler then sends exactly ONE further packet — a best-effort
courtesy copy of that ERROR packet — to the client, and the session ends
(the trace below is the complete, finite behaviour: no crash and no
propagation beyond the handler). -/
theorem c9_amended_retry_exhaustion (fuel k addr : Nat)
    (chan : Nat → Option (List Nat × Nat)) (hfuel : 1 ≤ fuel)
    (hchan : ∀ i, chan i = none) :
    handleWriteSession fuel k addr chan false =
      Event.fileCreate ::
        ((List.replicate (k + 1)
           [Event.send (tftpAckAsPacket ⟨0⟩) addr, Event.recvTimeout]).flatten ++
         [Event.send (tftpErrorAsPacket exceededError) addr]) := by
  obtain ⟨f, rfl⟩ : ∃ f, fuel = f + 1 := ⟨fuel - 1, by omega⟩
  have houter : rfOuter k addr chan (f + 1) 0 0 =
      (RfResult.err exceededError,
       (List.replicate (k + 1)
         [Event.send (tftpAckAsPacket ⟨0 % 65536⟩) addr, Event.recvTimeout]).flatten) := by
    simp only [rfOuter, rfGo_timeout k addr chan 0 hchan (k + 1) 0 0]
  have hmod : (0 : Nat) % 65536 = 0 := rfl
  rw [hmod] at houter
  unfold handleWriteSession recieveFile
  rw [if_neg (by simp)]
  simp only [houter]
  simp

/-- C9 witness: the amended exhaustion behaviour at fuel 1, budget k = 1,
client address 3. -/
theorem c9_amended_retry_exhaustion_witness :
    handleWriteSession 1 1 3 (fun _ => none) false =
      Event.fileCreate ::
        ((List.replicate 2
           [Event.send (tftpAckAsPacket ⟨0⟩) 3, Event.recvTimeout]).flatten ++
         [Event.send (tftpErrorAsPacket exceededError) 3]) :=
  c9_amended_retry_exhaustion 1 1 3 (fun _ => none) (by decide) (fun i => rfl)

end Tftprs
